import Mathlib

/-!
Shallow embedding of the handlords simulation core (src/src/main.cpp).
Machine integers are modelled as Nat (with explicit % 2^w where the C++
type wraps: uint8_t counters wrap mod 256, the uint16_t tick wraps mod
65536) or as Int where the C++ computation is done in int.  The grid is
a function from the linear row-major index to cells.  The std::mt19937
strategy of rngu is modelled as an arbitrary 16-bit masked stream held
in the state together with a read index.
-/

set_option maxRecDepth 20000

namespace Handlords

def ARENA_W : Nat := 40

def ARENA_H : Nat := 24

inductive CellKind where
  | Empty
  | Wall
  | Symbol
deriving DecidableEq, Repr

inductive Piece where
  | Rock
  | Paper
  | Scissors
deriving DecidableEq, Repr

/-- A cell of the arena: kind, owner (the uint8 value of PlayerId) and piece. -/
structure Cell where
  kind : CellKind
  owner : Nat
  piece : Piece
deriving DecidableEq, Repr

/-- The zero-initialized Cell of the C++ struct. -/
def defaultCell : Cell := { kind := CellKind.Empty, owner := 0, piece := Piece.Rock }

/-- The grid, as a map from the linear index y*ARENA_W+x to cells. -/
abbrev Grid := Nat → Cell

/-- Linear row-major index, Grid::idx. -/
def idx (x y : Nat) : Nat := y * ARENA_W + x

/-- Writing one cell of the grid (assignment through Grid::at). -/
def gridSet (g : Grid) (i : Nat) (c : Cell) : Grid := fun j => if j = i then c else g j

structure GameConfig where
  pairs_per_tick : Int
  ticks_per_second : Int
deriving DecidableEq, Repr

/-- PlayerState;  last_rot_tick is a uint16, tick_losses / rot_period / accel_ctr
are uint8 values. -/
structure PlayerState where
  id : Nat
  current : Piece
  last_rot_tick : Nat
  tick_losses : Nat
  rot_period : Nat
  accel_ctr : Nat
deriving DecidableEq, Repr

/-- The default-initialized PlayerState of the C++ struct. -/
def defaultPlayer : PlayerState :=
  { id := 0, current := Piece.Rock, last_rot_tick := 0, tick_losses := 0,
    rot_period := 0, accel_ctr := 0 }

structure AlbertConfig where
  rotation_average : Int
  rotation_half_interval : Int
deriving DecidableEq, Repr

inductive Phase where
  | Ready
  | Playing
  | Lost
  | Won
  | GameWon
deriving DecidableEq, Repr

/-- GameState.  tick and rng16 are uint16 values; the four last_* statistics
are C++ ints; system_stream / sys_index model the draws of the std::mt19937
strategy as an arbitrary pre-masked stream. -/
structure GameState where
  grid : Grid
  cfg : GameConfig
  tick : Nat
  rng16 : Nat
  players : List PlayerState
  current_level : Int
  phase : Phase
  last_battles : Int
  use_system_rng : Bool
  system_stream : Nat → Nat
  sys_index : Nat
  last_attempts : Int
  last_same_player : Int
  last_wall_empty : Int
  albert_config : AlbertConfig

/-- The default member initializers of struct GameState (players start empty,
as in the C++ declaration; main fills them before use). -/
def gsDefault : GameState :=
  { grid := fun _ => defaultCell
    cfg := { pairs_per_tick := 240, ticks_per_second := 15 }
    tick := 0
    rng16 := 0xACE1
    players := []
    current_level := 1
    phase := Phase.Ready
    last_battles := 0
    use_system_rng := false
    system_stream := fun _ => 0
    sys_index := 0
    last_attempts := 0
    last_same_player := 0
    last_wall_empty := 0
    albert_config := { rotation_average := 58, rotation_half_interval := 43 } }

/-- lfsr16_step: taps at bit positions 0, 2, 3 and 5 of the previous state,
XORed, the state shifted right by one and the computed bit inserted at bit 15. -/
def lfsr16_step (s : Nat) : Nat :=
  let bit := ((s >>> 0) ^^^ (s >>> 2) ^^^ (s >>> 3) ^^^ (s >>> 5)) &&& 1
  (s >>> 1) ||| (bit <<< 15)

/-- rngu: returns the drawn 16-bit value together with the advanced state.
The system strategy reads the modelled mt19937 stream masked to 16 bits. -/
def rngu (gs : GameState) : Nat × GameState :=
  if gs.use_system_rng then
    (gs.system_stream gs.sys_index &&& 0xFFFF, { gs with sys_index := gs.sys_index + 1 })
  else
    let s := lfsr16_step gs.rng16
    (s, { gs with rng16 := s })

/-- in_bounds on int coordinates. -/
def in_bounds (x y : Int) : Bool :=
  decide (0 ≤ x ∧ x < (ARENA_W : Int) ∧ 0 ≤ y ∧ y < (ARENA_H : Int))

/-- pick_neighbor: the low 2 bits of the random value select N, E, S or W. -/
def pick_neighbor (x y : Int) (r : Nat) : Int × Int :=
  match r &&& 3 with
  | 0 => (x, y - 1)
  | 1 => (x + 1, y)
  | 2 => (x, y + 1)
  | _ => (x - 1, y)

def pieceVal : Piece → Nat
  | Piece.Rock => 0
  | Piece.Paper => 1
  | Piece.Scissors => 2

def pieceOfNat : Nat → Piece
  | 0 => Piece.Rock
  | 1 => Piece.Paper
  | _ => Piece.Scissors

/-- static_cast of (int(piece) + 1) % 3 back to Piece. -/
def rotatePiece (p : Piece) : Piece := pieceOfNat ((pieceVal p + 1) % 3)

/-- The a_wins chain of Rule 6 in resolve_pair. -/
def beats (p q : Piece) : Bool :=
  decide ((p = Piece.Rock ∧ q = Piece.Scissors) ∨
          (p = Piece.Scissors ∧ q = Piece.Paper) ∨
          (p = Piece.Paper ∧ q = Piece.Rock))

/-- The guarded tick_losses++ of a losing player: uint8 increment wraps mod 256. -/
def incLoss (gs : GameState) (loser : Nat) : GameState :=
  if loser < gs.players.length then
    let p := gs.players.getD loser defaultPlayer
    { gs with players :=
        gs.players.set loser { p with tick_losses := (p.tick_losses + 1) % 256 } }
  else gs

/-- resolve_pair, with the duel rule chain of the source. -/
def resolve_pair (gs : GameState) (x y nx ny : Int) : GameState :=
  if !(in_bounds nx ny) then gs
  else
    let ia := idx x.toNat y.toNat
    let ib := idx nx.toNat ny.toNat
    let a := gs.grid ia
    let b := gs.grid ib
    if a.kind = CellKind.Wall ∨ b.kind = CellKind.Wall then gs
    else if a.kind = CellKind.Empty ∧ b.kind = CellKind.Empty then gs
    else if a.kind = CellKind.Empty ∧ b.kind = CellKind.Symbol then
      { gs with grid := gridSet gs.grid ia b }
    else if b.kind = CellKind.Empty ∧ a.kind = CellKind.Symbol then
      { gs with grid := gridSet gs.grid ib a }
    else if a.kind = CellKind.Symbol ∧ b.kind = CellKind.Symbol then
      if a.owner = b.owner then gs
      else if a.piece = b.piece then
        let r := (rngu gs).1
        let gs1 := (rngu gs).2
        if r &&& 1 = 1 then
          incLoss { gs1 with grid := gridSet gs1.grid ib a } b.owner
        else
          incLoss { gs1 with grid := gridSet gs1.grid ia b } a.owner
      else
        if beats a.piece b.piece then
          incLoss { gs with grid := gridSet gs.grid ib a } b.owner
        else
          incLoss { gs with grid := gridSet gs.grid ia b } a.owner
    else gs

/-- One iteration of the resolve_pairs loop: three RNG draws, coordinate and
neighbor selection, statistics classification on the pre-mutation cells, then
resolve_pair.  The accumulator carries the battles / same-player / wall-empty
counters. -/
def resolve_pairs_step (acc : GameState × Int × Int × Int) (_i : Nat) :
    GameState × Int × Int × Int :=
  let gs := acc.1
  let battles := acc.2.1
  let same := acc.2.2.1
  let we := acc.2.2.2
  let r1 := (rngu gs).1
  let gsa := (rngu gs).2
  let r2 := (rngu gsa).1
  let gsb := (rngu gsa).2
  let x : Int := (r1 % ARENA_W : Nat)
  let y : Int := (r2 % ARENA_H : Nat)
  let r3 := (rngu gsb).1
  let gsc := (rngu gsb).2
  let nx := (pick_neighbor x y r3).1
  let ny := (pick_neighbor x y r3).2
  let counts :=
    if in_bounds nx ny then
      let a := gsc.grid (idx x.toNat y.toNat)
      let b := gsc.grid (idx nx.toNat ny.toNat)
      if a.kind = CellKind.Wall ∨ b.kind = CellKind.Wall ∨
         a.kind = CellKind.Empty ∨ b.kind = CellKind.Empty then
        (battles, same, we + 1)
      else if a.kind = CellKind.Symbol ∧ b.kind = CellKind.Symbol then
        if a.owner = b.owner then (battles, same + 1, we) else (battles + 1, same, we)
      else (battles, same, we)
    else (battles, same, we)
  (resolve_pair gsc x y nx ny, counts)

/-- resolve_pairs: count iterations of the loop body, then the four statistics
fields are stored for the debug display. -/
def resolve_pairs (gs : GameState) (count : Int) : GameState :=
  let r := (List.range count.toNat).foldl resolve_pairs_step (gs, 0, 0, 0)
  { r.1 with
      last_battles := r.2.1
      last_attempts := count
      last_same_player := r.2.2.1
      last_wall_empty := r.2.2.2 }

/-- The interval computation shared by both draw sites of update_albert_ai:
min = max(1, average - half_interval), max = average + half_interval,
result = min + r % (max - min + 1), computed in int. -/
def albert_draw (cfg : AlbertConfig) (r : Nat) : Int :=
  let min_interval := cfg.rotation_average - cfg.rotation_half_interval
  let max_interval := cfg.rotation_average + cfg.rotation_half_interval
  let min_clamped := max 1 min_interval
  let range := max_interval - min_clamped + 1
  min_clamped + (r : Int) % range

/-- The int-to-uint8 conversion performed when the drawn interval is assigned
to the uint8 field rot_period. -/
def albert_store (cfg : AlbertConfig) (r : Nat) : Nat := ((albert_draw cfg r) % 256).toNat

/-- Repainting every Symbol cell owned by a player to a new piece (the nested
x/y loop of update_albert_ai and of the human rotation handler; each cell is
written once from its own previous value, so the loop is the pointwise map). -/
def repaint (g : Grid) (pid : Nat) (pc : Piece) : Grid :=
  fun j =>
    let c := g j
    if c.kind = CellKind.Symbol ∧ c.owner = pid then { c with piece := pc } else c

/-- update_albert_ai for the player at index i of gs.players (the C++ function
receives a reference into the vector). -/
def update_albert_ai (gs : GameState) (i : Nat) : GameState :=
  let player := gs.players.getD i defaultPlayer
  let init :=
    if player.rot_period = 0 then
      ({ player with rot_period := albert_store gs.albert_config (rngu gs).1 }, (rngu gs).2)
    else (player, gs)
  let player := init.1
  let gs := init.2
  if (gs.tick : Int) - (player.last_rot_tick : Int) ≥ (player.rot_period : Int) then
    let player := { player with current := rotatePiece player.current, last_rot_tick := gs.tick }
    let gs := { gs with grid := repaint gs.grid player.id player.current }
    let player := { player with rot_period := albert_store (rngu gs).2.albert_config (rngu gs).1 }
    { (rngu gs).2 with players := ((rngu gs).2).players.set i player }
  else
    { gs with players := gs.players.set i player }

/-- The per-player surviving Symbol count of the win/lose scan (the code counts
owners below 4 into an array and reads entries 0 and 1; for a fixed owner p
this is the number of Symbol cells with that owner). -/
def playerCount (g : Grid) (p : Nat) : Nat :=
  (List.range (ARENA_W * ARENA_H)).countP
    (fun j => decide ((g j).kind = CellKind.Symbol ∧ (g j).owner = p))

/-- Setting the kind of one cell to Wall (the border loops of load_level1 assign
only the kind field). -/
def wallKind (g : Grid) (x y : Nat) : Grid :=
  gridSet g (idx x y) { g (idx x y) with kind := CellKind.Wall }

/-- One iteration of the first border loop of load_level1 (top and bottom row). -/
def brStep (g : Grid) (x : Nat) : Grid := wallKind (wallKind g x 0) x (ARENA_H - 1)

/-- One iteration of the second border loop of load_level1 (left and right column). -/
def bcStep (g : Grid) (y : Nat) : Grid := wallKind (wallKind g 0 y) (ARENA_W - 1) y

/-- One iteration of the inner loop of the territory fill of load_level1: the
left half of the row becomes the c0 cell, the right half the c1 cell (kind,
owner and piece are all assigned, so the whole cell is replaced). -/
def frStep (c0 c1 : Cell) (y : Nat) (g : Grid) (x : Nat) : Grid :=
  if x < ARENA_W / 2 then gridSet g (idx x y) c0 else gridSet g (idx x y) c1

/-- One iteration of the outer loop of the territory fill of load_level1. -/
def fiStep (c0 c1 : Cell) (g : Grid) (y : Nat) : Grid :=
  (List.range' 1 (ARENA_W - 2)).foldl (frStep c0 c1 y) g

/-- load_level1: clear, border walls, then left half to player 0 and right half
to player 1 with the current piece of each. -/
def load_level1 (gs : GameState) : GameState :=
  let c0 : Cell :=
    { kind := CellKind.Symbol, owner := 0, piece := (gs.players.getD 0 defaultPlayer).current }
  let c1 : Cell :=
    { kind := CellKind.Symbol, owner := 1, piece := (gs.players.getD 1 defaultPlayer).current }
  let g : Grid := fun _ => defaultCell
  let g := (List.range ARENA_W).foldl brStep g
  let g := (List.range ARENA_H).foldl bcStep g
  let g := (List.range' 1 (ARENA_H - 2)).foldl (fiStep c0 c1) g
  { gs with grid := g }

/-- The first stage of a Playing tick in step_fixed: tick++ (uint16), reset of
every tick_losses, then resolve_pairs with the configured budget. -/
def tick_resolve (gs : GameState) : GameState :=
  let gs := { gs with tick := (gs.tick + 1) % 65536 }
  let gs := { gs with players := gs.players.map fun p => { p with tick_losses := 0 } }
  resolve_pairs gs gs.cfg.pairs_per_tick

/-- The win/lose evaluation of step_fixed: Lost when player 0 has no surviving
cells and player 1 has some, Won in the reverse case, no change otherwise. -/
def apply_win_loss (gs : GameState) : GameState :=
  let c0 := playerCount gs.grid 0
  let c1 := playerCount gs.grid 1
  if c0 = 0 ∧ c1 > 0 then { gs with phase := Phase.Lost }
  else if c1 = 0 ∧ c0 > 0 then { gs with phase := Phase.Won }
  else gs

/-- The AI loop of step_fixed: i runs from 1 to players.size()-1 and only
player 1 (Albert) is currently updated. -/
def run_ai_players (gs : GameState) : GameState :=
  (List.range' 1 (gs.players.length - 1)).foldl
    (fun g i => if i = 1 then update_albert_ai g 1 else g) gs

/-- step_fixed: one fixed-timestep advance.  Only the Playing phase does work;
its body is the sequence tick++/loss-reset/resolve_pairs, the win/lose scan
with the Lost and Won transitions, then the AI loop. -/
def step_fixed (gs : GameState) : GameState :=
  match gs.phase with
  | Phase.Playing =>
    let gs := { gs with tick := (gs.tick + 1) % 65536 }
    let gs := { gs with players := gs.players.map fun p => { p with tick_losses := 0 } }
    let gs := resolve_pairs gs gs.cfg.pairs_per_tick
    let c0 := playerCount gs.grid 0
    let c1 := playerCount gs.grid 1
    let gs :=
      if c0 = 0 ∧ c1 > 0 then { gs with phase := Phase.Lost }
      else if c1 = 0 ∧ c0 > 0 then { gs with phase := Phase.Won }
      else gs
    (List.range' 1 (gs.players.length - 1)).foldl
      (fun g i => if i = 1 then update_albert_ai g 1 else g) gs
  | _ => gs

/-- The SPACE handler in the Playing phase: rotate the piece of player 0, stamp
its rotation tick and repaint its owned cells. -/
def rotate_human (gs : GameState) : GameState :=
  let player := gs.players.getD 0 defaultPlayer
  let player := { player with current := rotatePiece player.current, last_rot_tick := gs.tick }
  { gs with
      players := gs.players.set 0 player
      grid := repaint gs.grid 0 player.current }

/-- The two players installed by main before the first level load. -/
def initialPlayers : List PlayerState :=
  [{ defaultPlayer with id := 0, current := Piece.Rock },
   { defaultPlayer with id := 1, current := Piece.Scissors }]

/-- The game state right after the initialization in main. -/
def gsInit : GameState := load_level1 { gsDefault with players := initialPlayers }

theorem gridSet_self (g : Grid) (i : Nat) (c : Cell) : gridSet g i c i = c := by
  simp [gridSet]

theorem gridSet_ne (g : Grid) (i : Nat) (c : Cell) (j : Nat) (h : j ≠ i) :
    gridSet g i c j = g j := by
  simp [gridSet, h]

theorem list_set_getD (l : List PlayerState) (n : Nat) (d : PlayerState) :
    l.set n (l.getD n d) = l := by
  induction l generalizing n with
  | nil => simp
  | cons h t ih =>
    cases n with
    | zero => simp [List.getD]
    | succ m => simpa [List.set, List.getD] using ih m

theorem list_getD_set_self (l : List PlayerState) (n : Nat) (a d : PlayerState)
    (h : n < l.length) : (l.set n a).getD n d = a := by
  simp [List.getD, List.getElem?_set_self, h]

theorem rngu_grid (gs : GameState) : ((rngu gs).2).grid = gs.grid := by
  unfold rngu; cases h : gs.use_system_rng <;> simp [h]

theorem rngu_players (gs : GameState) : ((rngu gs).2).players = gs.players := by
  unfold rngu; cases h : gs.use_system_rng <;> simp [h]

theorem rngu_phase (gs : GameState) : ((rngu gs).2).phase = gs.phase := by
  unfold rngu; cases h : gs.use_system_rng <;> simp [h]

theorem rngu_albert (gs : GameState) :
    ((rngu gs).2).albert_config = gs.albert_config := by
  unfold rngu; cases h : gs.use_system_rng <;> simp [h]

theorem rngu_tick (gs : GameState) : ((rngu gs).2).tick = gs.tick := by
  unfold rngu; cases h : gs.use_system_rng <;> simp [h]

theorem rngu_last_battles (gs : GameState) :
    ((rngu gs).2).last_battles = gs.last_battles := by
  unfold rngu; cases h : gs.use_system_rng <;> simp [h]

theorem rngu_last_attempts (gs : GameState) :
    ((rngu gs).2).last_attempts = gs.last_attempts := by
  unfold rngu; cases h : gs.use_system_rng <;> simp [h]

theorem rngu_last_same_player (gs : GameState) :
    ((rngu gs).2).last_same_player = gs.last_same_player := by
  unfold rngu; cases h : gs.use_system_rng <;> simp [h]

theorem rngu_last_wall_empty (gs : GameState) :
    ((rngu gs).2).last_wall_empty = gs.last_wall_empty := by
  unfold rngu; cases h : gs.use_system_rng <;> simp [h]

theorem incLoss_grid (gs : GameState) (l : Nat) : (incLoss gs l).grid = gs.grid := by
  unfold incLoss; split <;> rfl

theorem incLoss_phase (gs : GameState) (l : Nat) : (incLoss gs l).phase = gs.phase := by
  unfold incLoss; split <;> rfl

theorem incLoss_tick (gs : GameState) (l : Nat) : (incLoss gs l).tick = gs.tick := by
  unfold incLoss; split <;> rfl

/-- The tick_losses of the player the guarded increment targets: the uint8
counter advances to (old + 1) mod 256. -/
theorem incLoss_losses (gs : GameState) (l : Nat) (h : l < gs.players.length) :
    ((incLoss gs l).players.getD l defaultPlayer).tick_losses
      = ((gs.players.getD l defaultPlayer).tick_losses + 1) % 256 := by
  unfold incLoss
  rw [if_pos h]
  simp only
  rw [list_getD_set_self _ _ _ _ (by simpa using h)]

/-- Case analysis of the grid effect of resolve_pair: either the grid is
untouched, or exactly one of the two addressed cells is overwritten with a
copy of the other; in the latter case the two cells differed and neither was
a Wall. -/
theorem resolve_pair_grid_change (gs : GameState) (x y nx ny : Int) :
    (resolve_pair gs x y nx ny).grid = gs.grid
    ∨ ((resolve_pair gs x y nx ny).grid
         = gridSet gs.grid (idx x.toNat y.toNat) (gs.grid (idx nx.toNat ny.toNat))
       ∧ gs.grid (idx x.toNat y.toNat) ≠ gs.grid (idx nx.toNat ny.toNat)
       ∧ (gs.grid (idx x.toNat y.toNat)).kind ≠ CellKind.Wall
       ∧ (gs.grid (idx nx.toNat ny.toNat)).kind ≠ CellKind.Wall)
    ∨ ((resolve_pair gs x y nx ny).grid
         = gridSet gs.grid (idx nx.toNat ny.toNat) (gs.grid (idx x.toNat y.toNat))
       ∧ gs.grid (idx x.toNat y.toNat) ≠ gs.grid (idx nx.toNat ny.toNat)
       ∧ (gs.grid (idx x.toNat y.toNat)).kind ≠ CellKind.Wall
       ∧ (gs.grid (idx nx.toNat ny.toNat)).kind ≠ CellKind.Wall) := by
  unfold resolve_pair
  by_cases h0 : (!in_bounds nx ny) = true
  · rw [if_pos h0]; exact Or.inl rfl
  rw [if_neg h0]
  simp only
  by_cases h1 : (gs.grid (idx x.toNat y.toNat)).kind = CellKind.Wall ∨
      (gs.grid (idx nx.toNat ny.toNat)).kind = CellKind.Wall
  · rw [if_pos h1]; exact Or.inl rfl
  rw [if_neg h1]
  push_neg at h1
  by_cases h2 : (gs.grid (idx x.toNat y.toNat)).kind = CellKind.Empty ∧
      (gs.grid (idx nx.toNat ny.toNat)).kind = CellKind.Empty
  · rw [if_pos h2]; exact Or.inl rfl
  rw [if_neg h2]
  by_cases h3 : (gs.grid (idx x.toNat y.toNat)).kind = CellKind.Empty ∧
      (gs.grid (idx nx.toNat ny.toNat)).kind = CellKind.Symbol
  · rw [if_pos h3]
    refine Or.inr (Or.inl ⟨rfl, ?_, h1.1, h1.2⟩)
    intro hEq; rw [hEq, h3.2] at h3; exact absurd h3.1 (by simp)
  rw [if_neg h3]
  by_cases h4 : (gs.grid (idx nx.toNat ny.toNat)).kind = CellKind.Empty ∧
      (gs.grid (idx x.toNat y.toNat)).kind = CellKind.Symbol
  · rw [if_pos h4]
    refine Or.inr (Or.inr ⟨rfl, ?_, h1.1, h1.2⟩)
    intro hEq; rw [hEq, h4.1] at h4; exact absurd h4.2 (by simp)
  rw [if_neg h4]
  by_cases h5 : (gs.grid (idx x.toNat y.toNat)).kind = CellKind.Symbol ∧
      (gs.grid (idx nx.toNat ny.toNat)).kind = CellKind.Symbol
  swap
  · rw [if_neg h5]; exact Or.inl rfl
  rw [if_pos h5]
  by_cases h6 : (gs.grid (idx x.toNat y.toNat)).owner = (gs.grid (idx nx.toNat ny.toNat)).owner
  · rw [if_pos h6]; exact Or.inl rfl
  rw [if_neg h6]
  have hne : gs.grid (idx x.toNat y.toNat) ≠ gs.grid (idx nx.toNat ny.toNat) := by
    intro hEq; rw [hEq] at h6; exact h6 rfl
  by_cases h7 : (gs.grid (idx x.toNat y.toNat)).piece = (gs.grid (idx nx.toNat ny.toNat)).piece
  · rw [if_pos h7]
    by_cases h8 : (rngu gs).1 &&& 1 = 1
    · rw [if_pos h8]
      refine Or.inr (Or.inr ⟨?_, hne, h1.1, h1.2⟩)
      rw [incLoss_grid]; simp only; rw [rngu_grid]
    · rw [if_neg h8]
      refine Or.inr (Or.inl ⟨?_, hne, h1.1, h1.2⟩)
      rw [incLoss_grid]; simp only; rw [rngu_grid]
  rw [if_neg h7]
  by_cases h9 : beats (gs.grid (idx x.toNat y.toNat)).piece
      (gs.grid (idx nx.toNat ny.toNat)).piece = true
  · rw [if_pos h9]
    refine Or.inr (Or.inr ⟨?_, hne, h1.1, h1.2⟩)
    rw [incLoss_grid]
  · rw [if_neg h9]
    refine Or.inr (Or.inl ⟨?_, hne, h1.1, h1.2⟩)
    rw [incLoss_grid]

theorem resolve_pair_wall (gs : GameState) (x y nx ny : Int) (j : Nat)
    (h : (gs.grid j).kind = CellKind.Wall) :
    (resolve_pair gs x y nx ny).grid j = gs.grid j := by
  rcases resolve_pair_grid_change gs x y nx ny with h1 | ⟨he, _, hka, _⟩ | ⟨he, _, _, hkb⟩
  · rw [h1]
  · rw [he]; apply gridSet_ne; intro hj; rw [hj] at h; exact hka h
  · rw [he]; apply gridSet_ne; intro hj; rw [hj] at h; exact hkb h

theorem resolve_pairs_step_wall (acc : GameState × Int × Int × Int) (i j : Nat)
    (h : (acc.1.grid j).kind = CellKind.Wall) :
    (resolve_pairs_step acc i).1.grid j = acc.1.grid j := by
  obtain ⟨gs, b, s, w⟩ := acc
  unfold resolve_pairs_step
  simp only
  have hg : ((rngu (rngu (rngu gs).2).2).2).grid = gs.grid := by
    rw [rngu_grid, rngu_grid, rngu_grid]
  rw [resolve_pair_wall _ _ _ _ _ j (by rw [hg]; exact h), hg]

theorem foldl_resolve_wall (l : List Nat) (acc : GameState × Int × Int × Int) (j : Nat)
    (h : (acc.1.grid j).kind = CellKind.Wall) :
    ((l.foldl resolve_pairs_step acc).1.grid j) = acc.1.grid j := by
  induction l generalizing acc with
  | nil => rfl
  | cons a t ih =>
    rw [List.foldl_cons]
    have hstep := resolve_pairs_step_wall acc a j h
    rw [ih (resolve_pairs_step acc a) (by rw [hstep]; exact h), hstep]

theorem resolve_pairs_wall (gs : GameState) (count : Int) (j : Nat)
    (h : (gs.grid j).kind = CellKind.Wall) :
    (resolve_pairs gs count).grid j = gs.grid j := by
  unfold resolve_pairs
  simp only
  exact foldl_resolve_wall _ (gs, 0, 0, 0) j h

theorem repaint_wall (g : Grid) (pid : Nat) (pc : Piece) (j : Nat)
    (h : (g j).kind = CellKind.Wall) : repaint g pid pc j = g j := by
  unfold repaint
  simp only
  rw [if_neg]
  intro hc
  rw [h] at hc
  exact absurd hc.1 (by simp)

theorem update_albert_ai_wall (gs : GameState) (i j : Nat)
    (h : (gs.grid j).kind = CellKind.Wall) :
    (update_albert_ai gs i).grid j = gs.grid j := by
  unfold update_albert_ai
  simp only
  by_cases hrp : (gs.players.getD i defaultPlayer).rot_period = 0
  · rw [if_pos hrp]
    simp only
    split
    · simp only [rngu_grid]
      exact repaint_wall _ _ _ j h
    · rw [rngu_grid]
  · rw [if_neg hrp]
    simp only
    split
    · simp only [rngu_grid]
      exact repaint_wall _ _ _ j h
    · rfl

theorem foldl_ai_wall (l : List Nat) (gs : GameState) (j : Nat)
    (h : (gs.grid j).kind = CellKind.Wall) :
    ((l.foldl (fun g i => if i = 1 then update_albert_ai g 1 else g) gs).grid j) = gs.grid j := by
  induction l generalizing gs with
  | nil => rfl
  | cons a t ih =>
    rw [List.foldl_cons]
    by_cases ha : a = 1
    · rw [if_pos ha]
      have hstep := update_albert_ai_wall gs 1 j h
      rw [ih (update_albert_ai gs 1) (by rw [hstep]; exact h), hstep]
    · rw [if_neg ha]
      exact ih gs h

theorem apply_win_loss_grid (gs : GameState) : (apply_win_loss gs).grid = gs.grid := by
  unfold apply_win_loss; simp only; split_ifs <;> rfl

theorem apply_win_loss_players (gs : GameState) :
    (apply_win_loss gs).players = gs.players := by
  unfold apply_win_loss; simp only; split_ifs <;> rfl

theorem apply_win_loss_tick (gs : GameState) : (apply_win_loss gs).tick = gs.tick := by
  unfold apply_win_loss; simp only; split_ifs <;> rfl

theorem apply_win_loss_rng16 (gs : GameState) : (apply_win_loss gs).rng16 = gs.rng16 := by
  unfold apply_win_loss; simp only; split_ifs <;> rfl

theorem apply_win_loss_sys_index (gs : GameState) :
    (apply_win_loss gs).sys_index = gs.sys_index := by
  unfold apply_win_loss; simp only; split_ifs <;> rfl

theorem apply_win_loss_last_battles (gs : GameState) :
    (apply_win_loss gs).last_battles = gs.last_battles := by
  unfold apply_win_loss; simp only; split_ifs <;> rfl

theorem apply_win_loss_last_attempts (gs : GameState) :
    (apply_win_loss gs).last_attempts = gs.last_attempts := by
  unfold apply_win_loss; simp only; split_ifs <;> rfl

theorem apply_win_loss_last_same_player (gs : GameState) :
    (apply_win_loss gs).last_same_player = gs.last_same_player := by
  unfold apply_win_loss; simp only; split_ifs <;> rfl

theorem apply_win_loss_last_wall_empty (gs : GameState) :
    (apply_win_loss gs).last_wall_empty = gs.last_wall_empty := by
  unfold apply_win_loss; simp only; split_ifs <;> rfl

/-- In the Playing phase step_fixed is exactly the pipeline: tick increment,
loss reset and combat resolution, then the win/lose transitions, then the
unconditional AI loop. -/
theorem step_playing_decomp (gs : GameState) (h : gs.phase = Phase.Playing) :
    step_fixed gs = run_ai_players (apply_win_loss (tick_resolve gs)) := by
  unfold step_fixed tick_resolve apply_win_loss run_ai_players
  rw [h]

theorem step_fixed_wall (gs : GameState) (j : Nat)
    (h : (gs.grid j).kind = CellKind.Wall) :
    (step_fixed gs).grid j = gs.grid j := by
  by_cases hp : gs.phase = Phase.Playing
  · rw [step_playing_decomp gs hp]
    unfold run_ai_players
    have h1 : (tick_resolve gs).grid j = gs.grid j := by
      unfold tick_resolve
      simp only
      exact resolve_pairs_wall _ _ j h
    have h2 : (apply_win_loss (tick_resolve gs)).grid j = gs.grid j := by
      rw [apply_win_loss_grid, h1]
    rw [foldl_ai_wall _ _ j (by rw [h2]; exact h), h2]
  · unfold step_fixed
    cases hph : gs.phase <;> simp_all

theorem wallKind_kind_of (g : Grid) (x y j : Nat) :
    ((wallKind g x y) j).kind = CellKind.Wall ∨ (wallKind g x y) j = g j := by
  unfold wallKind gridSet
  by_cases hj : j = idx x y
  · simp [hj]
  · simp [hj]

theorem brFold_kind_of (xs : List Nat) (g : Grid) (j : Nat) :
    ((xs.foldl brStep g) j).kind = CellKind.Wall ∨ (xs.foldl brStep g) j = g j := by
  induction xs generalizing g with
  | nil => exact Or.inr rfl
  | cons a t ih =>
    rw [List.foldl_cons]
    rcases ih (brStep g a) with hW | hEq
    · exact Or.inl hW
    · rw [hEq]
      unfold brStep
      rcases wallKind_kind_of (wallKind g a 0) a (ARENA_H - 1) j with h1 | h2
      · exact Or.inl h1
      · rw [h2]; exact wallKind_kind_of g a 0 j

theorem brStep_wall_apply (g : Grid) (a y : Nat) (hy : y = 0 ∨ y = ARENA_H - 1) :
    ((brStep g a) (idx a y)).kind = CellKind.Wall := by
  unfold brStep wallKind gridSet
  rcases hy with h | h
  · subst h
    have hne : idx a 0 ≠ idx a (ARENA_H - 1) := by
      unfold idx
      simp only [ARENA_W, ARENA_H]
      omega
    simp [hne]
  · subst h
    simp

theorem brFold_wall (xs : List Nat) (g : Grid) (x y : Nat) (hx : x ∈ xs)
    (hy : y = 0 ∨ y = ARENA_H - 1) :
    ((xs.foldl brStep g) (idx x y)).kind = CellKind.Wall := by
  induction xs generalizing g with
  | nil => cases hx
  | cons a t ih =>
    rw [List.foldl_cons]
    rcases List.mem_cons.mp hx with rfl | hmem
    · rcases brFold_kind_of t (brStep g x) (idx x y) with hW | hEq
      · exact hW
      · rw [hEq]; exact brStep_wall_apply g x y hy
    · exact ih (brStep g a) hmem

theorem bcFold_kind_of (ys : List Nat) (g : Grid) (j : Nat) :
    ((ys.foldl bcStep g) j).kind = CellKind.Wall ∨ (ys.foldl bcStep g) j = g j := by
  induction ys generalizing g with
  | nil => exact Or.inr rfl
  | cons a t ih =>
    rw [List.foldl_cons]
    rcases ih (bcStep g a) with hW | hEq
    · exact Or.inl hW
    · rw [hEq]
      unfold bcStep
      rcases wallKind_kind_of (wallKind g 0 a) (ARENA_W - 1) a j with h1 | h2
      · exact Or.inl h1
      · rw [h2]; exact wallKind_kind_of g 0 a j

theorem bcStep_wall_apply (g : Grid) (a x : Nat) (hx : x = 0 ∨ x = ARENA_W - 1) :
    ((bcStep g a) (idx x a)).kind = CellKind.Wall := by
  unfold bcStep wallKind gridSet
  rcases hx with h | h
  · subst h
    have hne : idx 0 a ≠ idx (ARENA_W - 1) a := by
      unfold idx
      simp only [ARENA_W]
      omega
    simp [hne]
  · subst h
    simp

theorem bcFold_wall (ys : List Nat) (g : Grid) (x y : Nat) (hy : y ∈ ys)
    (hx : x = 0 ∨ x = ARENA_W - 1) :
    ((ys.foldl bcStep g) (idx x y)).kind = CellKind.Wall := by
  induction ys generalizing g with
  | nil => cases hy
  | cons a t ih =>
    rw [List.foldl_cons]
    rcases List.mem_cons.mp hy with rfl | hmem
    · rcases bcFold_kind_of t (bcStep g y) (idx x y) with hW | hEq
      · exact hW
      · rw [hEq]; exact bcStep_wall_apply g y x hx
    · exact ih (bcStep g a) hmem

theorem frFold_untouched (xs : List Nat) (c0 c1 : Cell) (y : Nat) (g : Grid) (j : Nat)
    (h : ∀ x ∈ xs, j ≠ idx x y) : ((xs.foldl (frStep c0 c1 y) g) j) = g j := by
  induction xs generalizing g with
  | nil => rfl
  | cons a t ih =>
    rw [List.foldl_cons]
    rw [ih (frStep c0 c1 y g a) (fun x hx => h x (List.mem_cons_of_mem a hx))]
    have hja : j ≠ idx a y := h a (List.mem_cons_self a t)
    unfold frStep
    split
    · exact gridSet_ne g (idx a y) c0 j hja
    · exact gridSet_ne g (idx a y) c1 j hja

theorem fiFold_untouched (ys : List Nat) (c0 c1 : Cell) (g : Grid) (j : Nat)
    (h : ∀ y ∈ ys, ∀ x ∈ List.range' 1 (ARENA_W - 2), j ≠ idx x y) :
    ((ys.foldl (fiStep c0 c1) g) j) = g j := by
  induction ys generalizing g with
  | nil => rfl
  | cons a t ih =>
    rw [List.foldl_cons]
    rw [ih (fiStep c0 c1 g a) (fun y hy => h y (List.mem_cons_of_mem a hy))]
    exact frFold_untouched _ c0 c1 a g j (h a (List.mem_cons_self a t))

/-- Every outer border cell of the freshly loaded level is a Wall. -/
theorem load_level1_border (gs : GameState) (x y : Nat) (hx : x < ARENA_W)
    (hy : y < ARENA_H) (hb : x = 0 ∨ x = ARENA_W - 1 ∨ y = 0 ∨ y = ARENA_H - 1) :
    (((load_level1 gs).grid) (idx x y)).kind = CellKind.Wall := by
  unfold load_level1
  simp only
  rw [fiFold_untouched]
  · rcases hb with h | h | h | h
    · exact bcFold_wall _ _ x y (List.mem_range.mpr hy) (Or.inl h)
    · exact bcFold_wall _ _ x y (List.mem_range.mpr hy) (Or.inr h)
    · rcases bcFold_kind_of (List.range ARENA_H) _ (idx x y) with hW | hEq
      · exact hW
      · rw [hEq]; exact brFold_wall _ _ x y (List.mem_range.mpr hx) (Or.inl h)
    · rcases bcFold_kind_of (List.range ARENA_H) _ (idx x y) with hW | hEq
      · exact hW
      · rw [hEq]; exact brFold_wall _ _ x y (List.mem_range.mpr hx) (Or.inr h)
  · intro y' hy' x' hx'
    have hy'b := List.mem_range'_1.mp hy'
    have hx'b := List.mem_range'_1.mp hx'
    unfold idx
    simp only [ARENA_W, ARENA_H] at hx hy hb hy'b hx'b ⊢
    omega

theorem beats_ne (p q : Piece) (h : beats p q = true) : p ≠ q := by
  revert h
  cases p <;> cases q <;> decide

/-- A duel between two enemy Symbol cells in which the piece of the sampled
cell beats the piece of the neighbor: the neighbor becomes a copy of the
sampled cell and the owner of the neighbor is charged one loss. -/
theorem resolve_pair_duel_won (gs : GameState) (x y nx ny : Int)
    (hin : in_bounds nx ny = true)
    (ha : (gs.grid (idx x.toNat y.toNat)).kind = CellKind.Symbol)
    (hb : (gs.grid (idx nx.toNat ny.toNat)).kind = CellKind.Symbol)
    (ho : (gs.grid (idx x.toNat y.toNat)).owner ≠ (gs.grid (idx nx.toNat ny.toNat)).owner)
    (hw : beats (gs.grid (idx x.toNat y.toNat)).piece (gs.grid (idx nx.toNat ny.toNat)).piece
            = true) :
    resolve_pair gs x y nx ny
      = incLoss
          { gs with
              grid := gridSet gs.grid (idx nx.toNat ny.toNat) (gs.grid (idx x.toNat y.toNat)) }
          ((gs.grid (idx nx.toNat ny.toNat)).owner) := by
  unfold resolve_pair
  rw [if_neg (by simp [hin])]
  simp only
  rw [if_neg (by simp [ha, hb]), if_neg (by simp [ha]), if_neg (by simp [ha]),
      if_neg (by simp [hb]), if_pos ⟨ha, hb⟩, if_neg ho,
      if_neg (beats_ne _ _ hw), if_pos hw]

/-- A duel between two enemy Symbol cells with different pieces in which the
piece of the sampled cell does not beat the piece of the neighbor: the sampled
cell becomes a copy of the neighbor and the owner of the sampled cell is
charged one loss. -/
theorem resolve_pair_duel_lost (gs : GameState) (x y nx ny : Int)
    (hin : in_bounds nx ny = true)
    (ha : (gs.grid (idx x.toNat y.toNat)).kind = CellKind.Symbol)
    (hb : (gs.grid (idx nx.toNat ny.toNat)).kind = CellKind.Symbol)
    (ho : (gs.grid (idx x.toNat y.toNat)).owner ≠ (gs.grid (idx nx.toNat ny.toNat)).owner)
    (hpq : (gs.grid (idx x.toNat y.toNat)).piece ≠ (gs.grid (idx nx.toNat ny.toNat)).piece)
    (hl : beats (gs.grid (idx x.toNat y.toNat)).piece (gs.grid (idx nx.toNat ny.toNat)).piece
            = false) :
    resolve_pair gs x y nx ny
      = incLoss
          { gs with
              grid := gridSet gs.grid (idx x.toNat y.toNat) (gs.grid (idx nx.toNat ny.toNat)) }
          ((gs.grid (idx x.toNat y.toNat)).owner) := by
  unfold resolve_pair
  rw [if_neg (by simp [hin])]
  simp only
  rw [if_neg (by simp [ha, hb]), if_neg (by simp [ha]), if_neg (by simp [ha]),
      if_neg (by simp [hb]), if_pos ⟨ha, hb⟩, if_neg ho, if_neg hpq,
      if_neg (by simp [hl])]

theorem update_albert_ai_phase (gs : GameState) (i : Nat) :
    (update_albert_ai gs i).phase = gs.phase := by
  unfold update_albert_ai
  simp only
  by_cases hrp : (gs.players.getD i defaultPlayer).rot_period = 0
  · rw [if_pos hrp]
    simp only
    split
    · simp only [rngu_phase]
    · rw [rngu_phase]
  · rw [if_neg hrp]
    simp only
    split
    · simp only [rngu_phase]
    · rfl

theorem foldl_ai_phase (l : List Nat) (gs : GameState) :
    ((l.foldl (fun g i => if i = 1 then update_albert_ai g 1 else g) gs).phase) = gs.phase := by
  induction l generalizing gs with
  | nil => rfl
  | cons a t ih =>
    rw [List.foldl_cons]
    by_cases ha : a = 1
    · rw [if_pos ha, ih, update_albert_ai_phase]
    · rw [if_neg ha, ih]

theorem run_ai_players_phase (gs : GameState) :
    (run_ai_players gs).phase = gs.phase := by
  unfold run_ai_players
  exact foldl_ai_phase _ gs

/-- update_albert_ai is the identity when the schedule is initialized and the
rotation deadline has not been reached. -/
theorem update_albert_ai_skip (gs : GameState) (i : Nat)
    (hrp : (gs.players.getD i defaultPlayer).rot_period ≠ 0)
    (hlt : (gs.tick : Int) - ((gs.players.getD i defaultPlayer).last_rot_tick : Int)
             < ((gs.players.getD i defaultPlayer).rot_period : Int)) :
    update_albert_ai gs i = gs := by
  unfold update_albert_ai
  simp only
  rw [if_neg hrp]
  simp only
  rw [if_neg (not_le.mpr hlt)]
  rw [list_set_getD]

theorem foldl_ai_ne_one (l : List Nat) (gs : GameState) (h : ∀ i ∈ l, i ≠ 1) :
    l.foldl (fun g i => if i = 1 then update_albert_ai g 1 else g) gs = gs := by
  induction l generalizing gs with
  | nil => rfl
  | cons a t ih =>
    rw [List.foldl_cons, if_neg (h a (List.mem_cons_self a t))]
    exact ih gs (fun i hi => h i (List.mem_cons_of_mem a hi))

theorem resolve_pairs_zero (gs : GameState) :
    resolve_pairs gs 0
      = { gs with last_battles := 0, last_attempts := 0,
                  last_same_player := 0, last_wall_empty := 0 } := rfl

/-- Bounds for the stored rot_period produced by one interval draw, in every
configuration whose upper end fits in the uint8 field. -/
theorem albert_store_bounds (cfg : AlbertConfig) (r : Nat)
    (h1 : 1 ≤ cfg.rotation_average) (h2 : 0 ≤ cfg.rotation_half_interval)
    (h3 : cfg.rotation_average + cfg.rotation_half_interval ≤ 255) :
    max 1 (cfg.rotation_average - cfg.rotation_half_interval) ≤ (albert_store cfg r : Int)
    ∧ (albert_store cfg r : Int) ≤ cfg.rotation_average + cfg.rotation_half_interval := by
  unfold albert_store albert_draw
  simp only
  set A := cfg.rotation_average with hA
  set H := cfg.rotation_half_interval with hH
  set m := max 1 (A - H) with hm
  have hm1 : 1 ≤ m := le_max_left _ _
  have hmle : m ≤ A + H := by
    rw [hm]; apply max_le <;> omega
  have hrange : (0 : Int) < A + H - m + 1 := by omega
  have hmod0 : 0 ≤ (r : Int) % (A + H - m + 1) := Int.emod_nonneg _ (by omega)
  have hmodlt : (r : Int) % (A + H - m + 1) < A + H - m + 1 := Int.emod_lt_of_pos _ hrange
  have hpos : 0 ≤ m + (r : Int) % (A + H - m + 1) := by omega
  have hlt256 : m + (r : Int) % (A + H - m + 1) < 256 := by omega
  rw [Int.emod_eq_of_lt hpos hlt256, Int.toNat_of_nonneg hpos]
  omega

theorem list_getD_ge (l : List PlayerState) (n : Nat) (d : PlayerState)
    (h : l.length ≤ n) : l.getD n d = d := by
  induction l generalizing n with
  | nil => simp [List.getD]
  | cons a t ih =>
    cases n with
    | zero => simp at h
    | succ m => simpa [List.getD] using ih m (by simpa using h)

theorem list_getD_map (l : List PlayerState) (f : PlayerState → PlayerState)
    (n : Nat) (d : PlayerState) (h : n < l.length) :
    (l.map f).getD n d = f (l.getD n d) := by
  induction l generalizing n with
  | nil => simp at h
  | cons a t ih =>
    cases n with
    | zero => simp [List.getD]
    | succ m => simpa [List.getD] using ih m (by simpa using h)

theorem resolve_pair_phase (gs : GameState) (x y nx ny : Int) :
    (resolve_pair gs x y nx ny).phase = gs.phase := by
  unfold resolve_pair
  by_cases h0 : (!in_bounds nx ny) = true
  · rw [if_pos h0]
  rw [if_neg h0]
  simp only
  by_cases h1 : (gs.grid (idx x.toNat y.toNat)).kind = CellKind.Wall ∨
      (gs.grid (idx nx.toNat ny.toNat)).kind = CellKind.Wall
  · rw [if_pos h1]
  rw [if_neg h1]
  by_cases h2 : (gs.grid (idx x.toNat y.toNat)).kind = CellKind.Empty ∧
      (gs.grid (idx nx.toNat ny.toNat)).kind = CellKind.Empty
  · rw [if_pos h2]
  rw [if_neg h2]
  by_cases h3 : (gs.grid (idx x.toNat y.toNat)).kind = CellKind.Empty ∧
      (gs.grid (idx nx.toNat ny.toNat)).kind = CellKind.Symbol
  · rw [if_pos h3]
  rw [if_neg h3]
  by_cases h4 : (gs.grid (idx nx.toNat ny.toNat)).kind = CellKind.Empty ∧
      (gs.grid (idx x.toNat y.toNat)).kind = CellKind.Symbol
  · rw [if_pos h4]
  rw [if_neg h4]
  by_cases h5 : (gs.grid (idx x.toNat y.toNat)).kind = CellKind.Symbol ∧
      (gs.grid (idx nx.toNat ny.toNat)).kind = CellKind.Symbol
  swap
  · rw [if_neg h5]
  rw [if_pos h5]
  by_cases h6 : (gs.grid (idx x.toNat y.toNat)).owner = (gs.grid (idx nx.toNat ny.toNat)).owner
  · rw [if_pos h6]
  rw [if_neg h6]
  by_cases h7 : (gs.grid (idx x.toNat y.toNat)).piece = (gs.grid (idx nx.toNat ny.toNat)).piece
  · rw [if_pos h7]
    by_cases h8 : (rngu gs).1 &&& 1 = 1
    · rw [if_pos h8, incLoss_phase]; simp only; rw [rngu_phase]
    · rw [if_neg h8, incLoss_phase]; simp only; rw [rngu_phase]
  rw [if_neg h7]
  by_cases h9 : beats (gs.grid (idx x.toNat y.toNat)).piece
      (gs.grid (idx nx.toNat ny.toNat)).piece = true
  · rw [if_pos h9, incLoss_phase]
  · rw [if_neg h9, incLoss_phase]

theorem resolve_pairs_step_phase (acc : GameState × Int × Int × Int) (i : Nat) :
    (resolve_pairs_step acc i).1.phase = acc.1.phase := by
  obtain ⟨gs, b, s, w⟩ := acc
  unfold resolve_pairs_step
  simp only
  rw [resolve_pair_phase, rngu_phase, rngu_phase, rngu_phase]

theorem foldl_resolve_phase (l : List Nat) (acc : GameState × Int × Int × Int) :
    ((l.foldl resolve_pairs_step acc).1.phase) = acc.1.phase := by
  induction l generalizing acc with
  | nil => rfl
  | cons a t ih => rw [List.foldl_cons, ih, resolve_pairs_step_phase]

theorem resolve_pairs_phase (gs : GameState) (count : Int) :
    (resolve_pairs gs count).phase = gs.phase := by
  unfold resolve_pairs
  simp only
  exact foldl_resolve_phase _ (gs, 0, 0, 0)

theorem tick_resolve_phase (gs : GameState) : (tick_resolve gs).phase = gs.phase := by
  unfold tick_resolve
  simp only
  rw [resolve_pairs_phase]

theorem update_albert_ai_players_length (gs : GameState) (i : Nat) :
    (update_albert_ai gs i).players.length = gs.players.length := by
  unfold update_albert_ai
  simp only
  by_cases hrp : (gs.players.getD i defaultPlayer).rot_period = 0
  · rw [if_pos hrp]
    simp only
    split
    · simp only [List.length_set, rngu_players]
    · simp only [List.length_set, rngu_players]
  · rw [if_neg hrp]
    simp only
    split
    · simp only [List.length_set, rngu_players]
    · simp only [List.length_set]

/-- The helper state after the three RNG draws of one resolve_pairs iteration. -/
def rps_gs1 (gs : GameState) : GameState := (rngu gs).2

def rps_gs2 (gs : GameState) : GameState := (rngu (rps_gs1 gs)).2

def rps_gs3 (gs : GameState) : GameState := (rngu (rps_gs2 gs)).2

/-- The sampled cell coordinate of one resolve_pairs iteration. -/
def rps_x (gs : GameState) : Int := ((rngu gs).1 % ARENA_W : Nat)

def rps_y (gs : GameState) : Int := ((rngu (rps_gs1 gs)).1 % ARENA_H : Nat)

/-- The selected neighbor coordinate of one resolve_pairs iteration. -/
def rps_n (gs : GameState) : Int × Int :=
  pick_neighbor (rps_x gs) (rps_y gs) (rngu (rps_gs2 gs)).1

/-- step_fixed in the Playing phase with a zero pair budget and an AI whose
rotation deadline is not reached: only tick, loss counters and the statistics
fields change, and the possible win/lose transition is applied on top. -/
theorem step_fixed_pairs0 (gs : GameState)
    (hp : gs.phase = Phase.Playing)
    (h0 : gs.cfg.pairs_per_tick = 0)
    (hrp : (gs.players.getD 1 defaultPlayer).rot_period ≠ 0)
    (hlt : ((((gs.tick + 1) % 65536 : Nat) : Int))
             - ((gs.players.getD 1 defaultPlayer).last_rot_tick : Int)
             < ((gs.players.getD 1 defaultPlayer).rot_period : Int)) :
    step_fixed gs
      = apply_win_loss
          { gs with
              tick := (gs.tick + 1) % 65536
              players := gs.players.map fun p => { p with tick_losses := 0 }
              last_battles := 0
              last_attempts := 0
              last_same_player := 0
              last_wall_empty := 0 } := by
  have hlen2 : 2 ≤ gs.players.length := by
    by_contra hc
    push_neg at hc
    apply hrp
    rw [list_getD_ge gs.players 1 defaultPlayer (by omega)]
    rfl
  have hstage : tick_resolve gs
      = { gs with
            tick := (gs.tick + 1) % 65536
            players := gs.players.map fun p => { p with tick_losses := 0 }
            last_battles := 0
            last_attempts := 0
            last_same_player := 0
            last_wall_empty := 0 } := by
    unfold tick_resolve
    simp only
    rw [h0, resolve_pairs_zero]
  rw [step_playing_decomp gs hp, hstage]
  set m4 := apply_win_loss
          { gs with
              tick := (gs.tick + 1) % 65536
              players := gs.players.map fun p => { p with tick_losses := 0 }
              last_battles := 0
              last_attempts := 0
              last_same_player := 0
              last_wall_empty := 0 } with hm4
  have hpl : m4.players = gs.players.map fun p => { p with tick_losses := 0 } := by
    rw [hm4, apply_win_loss_players]
  have hlen4 : m4.players.length = gs.players.length := by
    rw [hpl, List.length_map]
  have hgetD : m4.players.getD 1 defaultPlayer
      = { gs.players.getD 1 defaultPlayer with tick_losses := 0 } := by
    rw [hpl, list_getD_map _ _ _ _ (by omega)]
  have htick : m4.tick = (gs.tick + 1) % 65536 := by
    rw [hm4, apply_win_loss_tick]
  have hskip : update_albert_ai m4 1 = m4 := by
    apply update_albert_ai_skip
    · rw [hgetD]; exact hrp
    · rw [hgetD, htick]; exact hlt
  unfold run_ai_players
  obtain ⟨k, hk⟩ : ∃ k, m4.players.length - 1 = k + 1 := ⟨m4.players.length - 2, by omega⟩
  rw [hk, List.range'_succ, List.foldl_cons, if_pos rfl, hskip]
  exact foldl_ai_ne_one _ m4 (fun i hi => by
    have hmem := List.mem_range'_1.mp hi
    omega)

theorem list_set_ge (l : List PlayerState) (n : Nat) (a : PlayerState)
    (h : l.length ≤ n) : l.set n a = l := by
  induction l generalizing n with
  | nil => rfl
  | cons b t ih =>
    cases n with
    | zero => simp at h
    | succ m => simpa using ih m (by simpa using h)

/-- C2 (amended): after one update_albert_ai call, the rot_period of the
updated player is either untouched or a value freshly drawn by the shared
interval computation; whenever average + half_interval fits in the uint8
field the drawn value lies in [max(1, average - half_interval),
average + half_interval]. -/
theorem c2_rot_period_bounds (gs : GameState) (i : Nat)
    (h1 : 1 ≤ gs.albert_config.rotation_average)
    (h2 : 0 ≤ gs.albert_config.rotation_half_interval)
    (h3 : gs.albert_config.rotation_average + gs.albert_config.rotation_half_interval ≤ 255) :
    (((update_albert_ai gs i).players.getD i defaultPlayer).rot_period
        = (gs.players.getD i defaultPlayer).rot_period)
    ∨ (max 1 (gs.albert_config.rotation_average - gs.albert_config.rotation_half_interval)
         ≤ ((((update_albert_ai gs i).players.getD i defaultPlayer).rot_period : Nat) : Int)
       ∧ ((((update_albert_ai gs i).players.getD i defaultPlayer).rot_period : Nat) : Int)
         ≤ gs.albert_config.rotation_average + gs.albert_config.rotation_half_interval) := by
  by_cases hlen : i < gs.players.length
  swap
  · left
    push_neg at hlen
    have hresl : (update_albert_ai gs i).players.length = gs.players.length :=
      update_albert_ai_players_length gs i
    rw [list_getD_ge _ _ _ (by omega), list_getD_ge _ _ _ hlen]
  · unfold update_albert_ai
    simp only
    by_cases hrp : (gs.players.getD i defaultPlayer).rot_period = 0
    · rw [if_pos hrp]
      simp only
      split
      · right
        rw [list_getD_set_self _ _ _ _ (by simp only [rngu_players]; exact hlen)]
        simp only [rngu_albert]
        exact albert_store_bounds _ _ h1 h2 h3
      · right
        rw [list_getD_set_self _ _ _ _ (by simp only [rngu_players]; exact hlen)]
        exact albert_store_bounds _ _ h1 h2 h3
    · rw [if_neg hrp]
      simp only
      split
      · right
        rw [list_getD_set_self _ _ _ _ (by simp only [rngu_players]; exact hlen)]
        simp only [rngu_albert]
        exact albert_store_bounds _ _ h1 h2 h3
      · left
        rw [list_getD_set_self _ _ _ _ hlen]

theorem rotate_human_wall (gs : GameState) (j : Nat)
    (h : (gs.grid j).kind = CellKind.Wall) :
    (rotate_human gs).grid j = gs.grid j := by
  unfold rotate_human
  simp only
  exact repaint_wall _ _ _ j h

/-- The state main builds before the first level load. -/
def gsMain : GameState := { gsDefault with players := initialPlayers }

/-- A Playing state in which only the opponent owns territory: the Lost
transition fires on the next tick. -/
def gsC1x : GameState :=
  { gsDefault with
      phase := Phase.Playing
      players := initialPlayers
      cfg := { pairs_per_tick := 0, ticks_per_second := 15 }
      grid := fun j =>
        if j = idx 5 5 then { kind := CellKind.Symbol, owner := 1, piece := Piece.Scissors }
        else defaultCell }

/-- An arbitrary Playing state used to witness the pipeline decomposition. -/
def gsC1w : GameState :=
  { gsDefault with phase := Phase.Playing, players := initialPlayers }

/-- Sliders at rotation_average = 200 and rotation_half_interval = 100 with an
RNG state whose next draw is 157: the stored uint8 interval wraps. -/
def gsC2x : GameState :=
  { gsDefault with
      rng16 := 314
      players := initialPlayers
      albert_config := { rotation_average := 200, rotation_half_interval := 100 } }

/-- A Playing state with a zero pair budget in which the AI rotation deadline
is reached, so the AI repaint changes the grid during the tick. -/
def gsC3x : GameState :=
  { gsDefault with
      phase := Phase.Playing
      players := [{ defaultPlayer with id := 0, current := Piece.Rock },
                  { defaultPlayer with id := 1, current := Piece.Scissors, rot_period := 1 }]
      cfg := { pairs_per_tick := 0, ticks_per_second := 15 }
      grid := fun j =>
        if j = idx 5 5 then { kind := CellKind.Symbol, owner := 0, piece := Piece.Rock }
        else if j = idx 6 5 then { kind := CellKind.Symbol, owner := 1, piece := Piece.Scissors }
        else defaultCell }

/-- A Playing state with a zero pair budget whose AI schedule is initialized
and far from its deadline. -/
def gsC3w : GameState :=
  { gsDefault with
      phase := Phase.Playing
      players := [{ defaultPlayer with id := 0, current := Piece.Rock },
                  { defaultPlayer with id := 1, current := Piece.Scissors, rot_period := 5 }]
      cfg := { pairs_per_tick := 0, ticks_per_second := 15 } }

/-- A Playing state with an entirely empty arena: both players have zero
surviving cells. -/
def gsC6w : GameState :=
  { gsDefault with
      phase := Phase.Playing
      players := initialPlayers
      cfg := { pairs_per_tick := 0, ticks_per_second := 15 } }

/-- Two enemy symbols side by side: Rock of player 0 at (5,5), Scissors of
player 1 at (6,5). -/
def gsC7w : GameState :=
  { gsDefault with
      players := initialPlayers
      grid := fun j =>
        if j = idx 5 5 then { kind := CellKind.Symbol, owner := 0, piece := Piece.Rock }
        else if j = idx 6 5 then { kind := CellKind.Symbol, owner := 1, piece := Piece.Scissors }
        else defaultCell }

/-- An RNG state from which the next resolve_pairs iteration samples (9, 0)
and its north neighbor (9, -1), which is outside the grid. -/
def gsC8w : GameState := { gsDefault with rng16 := 3 }

/-- The duel state of gsC7w with the losing player already at 255 losses. -/
def gsC10w : GameState :=
  { gsDefault with
      players := [{ defaultPlayer with id := 0, current := Piece.Rock },
                  { defaultPlayer with id := 1, current := Piece.Scissors, tick_losses := 255 }]
      grid := fun j =>
        if j = idx 5 5 then { kind := CellKind.Symbol, owner := 0, piece := Piece.Rock }
        else if j = idx 6 5 then { kind := CellKind.Symbol, owner := 1, piece := Piece.Scissors }
        else defaultCell }

/-- C1 (amended): during every Playing tick the engine performs in order the
tick increment, the reset of every tick_losses, the Combat Resolver
(tick_resolve), then the win/lose scan with the Lost and Won transitions
(apply_win_loss), and then runs the AI Controller loop for the non-human
players unconditionally (run_ai_players) - also on ticks in which Lost or Won
fired. -/
theorem c1_step_order (gs : GameState) (hp : gs.phase = Phase.Playing) :
    step_fixed gs = run_ai_players (apply_win_loss (tick_resolve gs)) :=
  step_playing_decomp gs hp

/-- Witness for c1_step_order at a concrete Playing state. -/
theorem c1_step_order_witness :
    gsC1w.phase = Phase.Playing
    ∧ step_fixed gsC1w = run_ai_players (apply_win_loss (tick_resolve gsC1w)) :=
  ⟨rfl, c1_step_order gsC1w rfl⟩

/-- C1 counterexample: a Playing tick in which the Lost transition fires and
the AI Controller nevertheless runs - its schedule, uninitialized before the
tick, holds a freshly drawn interval afterwards. -/
theorem c1_counterexample :
    gsC1x.phase = Phase.Playing
    ∧ (gsC1x.players.getD 1 defaultPlayer).rot_period = 0
    ∧ (step_fixed gsC1x).phase = Phase.Lost
    ∧ ((step_fixed gsC1x).players.getD 1 defaultPlayer).rot_period ≠ 0 := by
  refine ⟨rfl, rfl, ?_, ?_⟩ <;> decide

/-- C2 counterexample: with rotation_average = 200 and half_interval = 100 the
drawn interval 257 is stored as 1 in the uint8 rot_period, below the claimed
lower bound max(1, 100) = 100. -/
theorem c2_counterexample :
    gsC2x.albert_config.rotation_average = 200
    ∧ gsC2x.albert_config.rotation_half_interval = 100
    ∧ (gsC2x.players.getD 1 defaultPlayer).rot_period = 0
    ∧ ((update_albert_ai gsC2x 1).players.getD 1 defaultPlayer).rot_period = 1
    ∧ ¬(max 1 (gsC2x.albert_config.rotation_average
          - gsC2x.albert_config.rotation_half_interval)
        ≤ ((((update_albert_ai gsC2x 1).players.getD 1 defaultPlayer).rot_period : Nat) : Int)) := by
  refine ⟨rfl, rfl, rfl, ?_, ?_⟩ <;> decide

/-- Witness for c2_rot_period_bounds at the default configuration. -/
theorem c2_rot_period_bounds_witness :
    (1 ≤ gsMain.albert_config.rotation_average
     ∧ 0 ≤ gsMain.albert_config.rotation_half_interval
     ∧ gsMain.albert_config.rotation_average + gsMain.albert_config.rotation_half_interval ≤ 255)
    ∧ ((((update_albert_ai gsMain 1).players.getD 1 defaultPlayer).rot_period
          = (gsMain.players.getD 1 defaultPlayer).rot_period)
       ∨ (max 1 (gsMain.albert_config.rotation_average
            - gsMain.albert_config.rotation_half_interval)
            ≤ ((((update_albert_ai gsMain 1).players.getD 1 defaultPlayer).rot_period : Nat) : Int)
          ∧ ((((update_albert_ai gsMain 1).players.getD 1 defaultPlayer).rot_period : Nat) : Int)
            ≤ gsMain.albert_config.rotation_average
                + gsMain.albert_config.rotation_half_interval)) :=
  ⟨⟨by decide, by decide, by decide⟩,
   c2_rot_period_bounds gsMain 1 (by decide) (by decide) (by decide)⟩

/-- C3 (amended): with pairs_per_tick = 0, a Playing tick in which the AI
rotation deadline is not reached leaves the Grid unchanged; the tick counter
increments mod 2^16, every tick_losses is reset to 0, the RNG state is
untouched and the per-tick statistics are zeroed (the win/lose scan may still
change the phase). -/
theorem c3_zero_pairs_frame (gs : GameState)
    (hp : gs.phase = Phase.Playing)
    (h0 : gs.cfg.pairs_per_tick = 0)
    (hrp : (gs.players.getD 1 defaultPlayer).rot_period ≠ 0)
    (hlt : ((((gs.tick + 1) % 65536 : Nat) : Int))
             - ((gs.players.getD 1 defaultPlayer).last_rot_tick : Int)
             < ((gs.players.getD 1 defaultPlayer).rot_period : Int)) :
    (step_fixed gs).grid = gs.grid
    ∧ (step_fixed gs).tick = (gs.tick + 1) % 65536
    ∧ (step_fixed gs).players = gs.players.map (fun p => { p with tick_losses := 0 })
    ∧ (step_fixed gs).rng16 = gs.rng16
    ∧ (step_fixed gs).sys_index = gs.sys_index
    ∧ (step_fixed gs).last_battles = 0
    ∧ (step_fixed gs).last_attempts = 0
    ∧ (step_fixed gs).last_same_player = 0
    ∧ (step_fixed gs).last_wall_empty = 0 := by
  rw [step_fixed_pairs0 gs hp h0 hrp hlt]
  refine ⟨?_, ?_, ?_, ?_, ?_, ?_, ?_, ?_, ?_⟩
  · rw [apply_win_loss_grid]
  · rw [apply_win_loss_tick]
  · rw [apply_win_loss_players]
  · rw [apply_win_loss_rng16]
  · rw [apply_win_loss_sys_index]
  · rw [apply_win_loss_last_battles]
  · rw [apply_win_loss_last_attempts]
  · rw [apply_win_loss_last_same_player]
  · rw [apply_win_loss_last_wall_empty]

/-- Witness for c3_zero_pairs_frame at a concrete Playing state. -/
theorem c3_zero_pairs_frame_witness :
    (gsC3w.phase = Phase.Playing
     ∧ gsC3w.cfg.pairs_per_tick = 0
     ∧ (gsC3w.players.getD 1 defaultPlayer).rot_period ≠ 0
     ∧ ((((gsC3w.tick + 1) % 65536 : Nat) : Int))
         - ((gsC3w.players.getD 1 defaultPlayer).last_rot_tick : Int)
         < ((gsC3w.players.getD 1 defaultPlayer).rot_period : Int))
    ∧ (step_fixed gsC3w).grid = gsC3w.grid
    ∧ (step_fixed gsC3w).tick = (gsC3w.tick + 1) % 65536 :=
  ⟨⟨rfl, rfl, by decide, by decide⟩,
   (c3_zero_pairs_frame gsC3w rfl rfl (by decide) (by decide)).1,
   (c3_zero_pairs_frame gsC3w rfl rfl (by decide) (by decide)).2.1⟩

/-- C3 counterexample: with pairs_per_tick = 0 the tick of gsC3x still changes
the Grid, because the AI rotation fires and repaints the owned cell at (6,5). -/
theorem c3_counterexample :
    gsC3x.phase = Phase.Playing
    ∧ gsC3x.cfg.pairs_per_tick = 0
    ∧ (step_fixed gsC3x).grid (idx 6 5) ≠ gsC3x.grid (idx 6 5) := by
  refine ⟨rfl, rfl, ?_⟩
  decide

/-- C4: after a level load every outer-border cell is a Wall; combat
resolution, the AI repaint, the human rotation and the whole fixed step never
change a Wall cell; hence after any number of ticks from a level load no
border cell has kind other than Wall. -/
theorem c4_wall_invariant :
    (∀ gs : GameState, ∀ x y : Nat, x < ARENA_W → y < ARENA_H →
        (x = 0 ∨ x = ARENA_W - 1 ∨ y = 0 ∨ y = ARENA_H - 1) →
        (((load_level1 gs).grid) (idx x y)).kind = CellKind.Wall)
    ∧ (∀ gs : GameState, ∀ x y nx ny : Int, ∀ j : Nat,
        (gs.grid j).kind = CellKind.Wall →
        (resolve_pair gs x y nx ny).grid j = gs.grid j)
    ∧ (∀ gs : GameState, ∀ i j : Nat, (gs.grid j).kind = CellKind.Wall →
        (update_albert_ai gs i).grid j = gs.grid j)
    ∧ (∀ gs : GameState, ∀ j : Nat, (gs.grid j).kind = CellKind.Wall →
        (rotate_human gs).grid j = gs.grid j)
    ∧ (∀ gs : GameState, ∀ j : Nat, (gs.grid j).kind = CellKind.Wall →
        (step_fixed gs).grid j = gs.grid j)
    ∧ (∀ gs : GameState, ∀ n x y : Nat, x < ARENA_W → y < ARENA_H →
        (x = 0 ∨ x = ARENA_W - 1 ∨ y = 0 ∨ y = ARENA_H - 1) →
        (((step_fixed^[n] (load_level1 gs)).grid) (idx x y)).kind = CellKind.Wall) := by
  refine ⟨load_level1_border, resolve_pair_wall, update_albert_ai_wall,
    rotate_human_wall, step_fixed_wall, ?_⟩
  intro gs n x y hx hy hb
  induction n with
  | zero => simpa using load_level1_border gs x y hx hy hb
  | succ m ih =>
    rw [Function.iterate_succ_apply', step_fixed_wall _ _ ih]
    exact ih

/-- Witness for c4_wall_invariant at concrete corners of the loaded level. -/
theorem c4_wall_invariant_witness :
    (((load_level1 gsMain).grid) (idx 0 0)).kind = CellKind.Wall
    ∧ (((step_fixed^[2] (load_level1 gsMain)).grid) (idx 39 23)).kind = CellKind.Wall :=
  ⟨c4_wall_invariant.1 gsMain 0 0 (by decide) (by decide) (by decide),
   c4_wall_invariant.2.2.2.2.2 gsMain 2 39 23 (by decide) (by decide) (by decide)⟩

/-- C5: one resolve_pair attempt either leaves the grid unchanged, or makes
exactly one of the two addressed cells an exact whole-cell copy (kind, owner
and piece) of the other, leaving every other cell alone; a copy only happens
when the two cells differed. -/
theorem c5_duel_copy (gs : GameState) (x y nx ny : Int) :
    (resolve_pair gs x y nx ny).grid = gs.grid
    ∨ ((resolve_pair gs x y nx ny).grid
         = gridSet gs.grid (idx x.toNat y.toNat) (gs.grid (idx nx.toNat ny.toNat))
       ∧ gs.grid (idx x.toNat y.toNat) ≠ gs.grid (idx nx.toNat ny.toNat))
    ∨ ((resolve_pair gs x y nx ny).grid
         = gridSet gs.grid (idx nx.toNat ny.toNat) (gs.grid (idx x.toNat y.toNat))
       ∧ gs.grid (idx x.toNat y.toNat) ≠ gs.grid (idx nx.toNat ny.toNat)) := by
  rcases resolve_pair_grid_change gs x y nx ny with h | ⟨he, hne, _, _⟩ | ⟨he, hne, _, _⟩
  · exact Or.inl h
  · exact Or.inr (Or.inl ⟨he, hne⟩)
  · exact Or.inr (Or.inr ⟨he, hne⟩)

/-- C6: if the win/lose scan of a Playing tick finds zero surviving cells for
both players, neither transition fires and the phase stays Playing; the Lost
condition and the Won condition can never hold of the same grid. -/
theorem c6_double_zero_inert :
    (∀ gs : GameState, gs.phase = Phase.Playing →
        playerCount (tick_resolve gs).grid 0 = 0 →
        playerCount (tick_resolve gs).grid 1 = 0 →
        (step_fixed gs).phase = Phase.Playing)
    ∧ (∀ g : Grid, ¬((playerCount g 0 = 0 ∧ playerCount g 1 > 0)
         ∧ (playerCount g 1 = 0 ∧ playerCount g 0 > 0))) := by
  constructor
  · intro gs hp hc0 hc1
    rw [step_playing_decomp gs hp, run_ai_players_phase]
    unfold apply_win_loss
    simp only
    rw [if_neg (by simp [hc1]), if_neg (by simp [hc0]), tick_resolve_phase, hp]
  · intro g h
    omega

/-- Witness for c6_double_zero_inert on an empty arena. -/
theorem c6_double_zero_inert_witness :
    (gsC6w.phase = Phase.Playing
     ∧ playerCount (tick_resolve gsC6w).grid 0 = 0
     ∧ playerCount (tick_resolve gsC6w).grid 1 = 0)
    ∧ (step_fixed gsC6w).phase = Phase.Playing :=
  ⟨⟨rfl, by decide, by decide⟩,
   c6_double_zero_inert.1 gsC6w rfl (by decide) (by decide)⟩

/-- C7: the dominance chain of beats is Rock over Scissors, Scissors over
Paper, Paper over Rock and never the reverse; in a duel of enemy symbols the
cell of the losing side becomes an exact copy of the winning cell and the
losing player is charged one loss (its uint8 counter advances mod 256). -/
theorem c7_rps_duel :
    (beats Piece.Rock Piece.Scissors = true ∧ beats Piece.Scissors Piece.Paper = true
       ∧ beats Piece.Paper Piece.Rock = true)
    ∧ (∀ p q : Piece, beats p q = true → beats q p = false)
    ∧ (∀ p q : Piece, p ≠ q → beats p q = true ∨ beats q p = true)
    ∧ (∀ gs : GameState, ∀ x y nx ny : Int,
        in_bounds nx ny = true →
        (gs.grid (idx x.toNat y.toNat)).kind = CellKind.Symbol →
        (gs.grid (idx nx.toNat ny.toNat)).kind = CellKind.Symbol →
        (gs.grid (idx x.toNat y.toNat)).owner ≠ (gs.grid (idx nx.toNat ny.toNat)).owner →
        ((beats (gs.grid (idx x.toNat y.toNat)).piece
            (gs.grid (idx nx.toNat ny.toNat)).piece = true →
          (resolve_pair gs x y nx ny).grid
              = gridSet gs.grid (idx nx.toNat ny.toNat) (gs.grid (idx x.toNat y.toNat))
            ∧ ((gs.grid (idx nx.toNat ny.toNat)).owner < gs.players.length →
                ((resolve_pair gs x y nx ny).players.getD
                    ((gs.grid (idx nx.toNat ny.toNat)).owner) defaultPlayer).tick_losses
                  = ((gs.players.getD ((gs.grid (idx nx.toNat ny.toNat)).owner)
                        defaultPlayer).tick_losses + 1) % 256))
         ∧ ((gs.grid (idx x.toNat y.toNat)).piece ≠ (gs.grid (idx nx.toNat ny.toNat)).piece →
            beats (gs.grid (idx x.toNat y.toNat)).piece
              (gs.grid (idx nx.toNat ny.toNat)).piece = false →
          (resolve_pair gs x y nx ny).grid
              = gridSet gs.grid (idx x.toNat y.toNat) (gs.grid (idx nx.toNat ny.toNat))
            ∧ ((gs.grid (idx x.toNat y.toNat)).owner < gs.players.length →
                ((resolve_pair gs x y nx ny).players.getD
                    ((gs.grid (idx x.toNat y.toNat)).owner) defaultPlayer).tick_losses
                  = ((gs.players.getD ((gs.grid (idx x.toNat y.toNat)).owner)
                        defaultPlayer).tick_losses + 1) % 256)))) := by
  refine ⟨by decide, ?_, ?_, ?_⟩
  · intro p q
    cases p <;> cases q <;> decide
  · intro p q
    cases p <;> cases q <;> decide
  intro gs x y nx ny hin ha hb ho
  constructor
  · intro hw
    rw [resolve_pair_duel_won gs x y nx ny hin ha hb ho hw]
    constructor
    · rw [incLoss_grid]
    · intro hlen
      rw [incLoss_losses
            { gs with
                grid := gridSet gs.grid (idx nx.toNat ny.toNat)
                  (gs.grid (idx x.toNat y.toNat)) } _ hlen]
  · intro hpq hl
    rw [resolve_pair_duel_lost gs x y nx ny hin ha hb ho hpq hl]
    constructor
    · rw [incLoss_grid]
    · intro hlen
      rw [incLoss_losses
            { gs with
                grid := gridSet gs.grid (idx x.toNat y.toNat)
                  (gs.grid (idx nx.toNat ny.toNat)) } _ hlen]

/-- Witness for c7_rps_duel on the concrete Rock versus Scissors duel. -/
theorem c7_rps_duel_witness :
    (in_bounds 6 5 = true
     ∧ (gsC7w.grid (idx (5 : Int).toNat (5 : Int).toNat)).kind = CellKind.Symbol
     ∧ (gsC7w.grid (idx (6 : Int).toNat (5 : Int).toNat)).kind = CellKind.Symbol
     ∧ (gsC7w.grid (idx (5 : Int).toNat (5 : Int).toNat)).owner
         ≠ (gsC7w.grid (idx (6 : Int).toNat (5 : Int).toNat)).owner
     ∧ beats (gsC7w.grid (idx (5 : Int).toNat (5 : Int).toNat)).piece
         (gsC7w.grid (idx (6 : Int).toNat (5 : Int).toNat)).piece = true)
    ∧ (resolve_pair gsC7w 5 5 6 5).grid
        = gridSet gsC7w.grid (idx (6 : Int).toNat (5 : Int).toNat)
            (gsC7w.grid (idx (5 : Int).toNat (5 : Int).toNat))
    ∧ ((gsC7w.grid (idx (6 : Int).toNat (5 : Int).toNat)).owner < gsC7w.players.length →
        ((resolve_pair gsC7w 5 5 6 5).players.getD
            ((gsC7w.grid (idx (6 : Int).toNat (5 : Int).toNat)).owner) defaultPlayer).tick_losses
          = ((gsC7w.players.getD ((gsC7w.grid (idx (6 : Int).toNat (5 : Int).toNat)).owner)
                defaultPlayer).tick_losses + 1) % 256) :=
  ⟨⟨by decide, by decide, by decide, by decide, by decide⟩,
   ((c7_rps_duel.2.2.2 gsC7w 5 5 6 5 (by decide) (by decide) (by decide) (by decide)).1
      (by decide)).1,
   ((c7_rps_duel.2.2.2 gsC7w 5 5 6 5 (by decide) (by decide) (by decide) (by decide)).1
      (by decide)).2⟩

/-- C8: an attempt whose selected neighbor is outside the grid is fully
discarded: the iteration only advances the RNG, leaving grid, players, phase
and all statistics fields untouched, and none of the three statistics
accumulators is incremented. -/
theorem c8_oob_discarded (gs : GameState) (b s w : Int) (i : Nat)
    (h : in_bounds (rps_n gs).1 (rps_n gs).2 = false) :
    resolve_pairs_step (gs, b, s, w) i = (rps_gs3 gs, b, s, w)
    ∧ (rps_gs3 gs).grid = gs.grid
    ∧ (rps_gs3 gs).players = gs.players
    ∧ (rps_gs3 gs).phase = gs.phase
    ∧ (rps_gs3 gs).last_battles = gs.last_battles
    ∧ (rps_gs3 gs).last_attempts = gs.last_attempts
    ∧ (rps_gs3 gs).last_same_player = gs.last_same_player
    ∧ (rps_gs3 gs).last_wall_empty = gs.last_wall_empty := by
  unfold rps_n rps_x rps_y rps_gs2 rps_gs1 at h
  push_cast at h
  refine ⟨?_, ?_, ?_, ?_, ?_, ?_, ?_, ?_⟩
  · unfold resolve_pairs_step
    simp only
    rw [if_neg (by simp [h])]
    unfold resolve_pair
    rw [if_pos (by simp [h])]
    unfold rps_gs3 rps_gs2 rps_gs1
    rfl
  · unfold rps_gs3 rps_gs2 rps_gs1; rw [rngu_grid, rngu_grid, rngu_grid]
  · unfold rps_gs3 rps_gs2 rps_gs1; rw [rngu_players, rngu_players, rngu_players]
  · unfold rps_gs3 rps_gs2 rps_gs1; rw [rngu_phase, rngu_phase, rngu_phase]
  · unfold rps_gs3 rps_gs2 rps_gs1
    rw [rngu_last_battles, rngu_last_battles, rngu_last_battles]
  · unfold rps_gs3 rps_gs2 rps_gs1
    rw [rngu_last_attempts, rngu_last_attempts, rngu_last_attempts]
  · unfold rps_gs3 rps_gs2 rps_gs1
    rw [rngu_last_same_player, rngu_last_same_player, rngu_last_same_player]
  · unfold rps_gs3 rps_gs2 rps_gs1
    rw [rngu_last_wall_empty, rngu_last_wall_empty, rngu_last_wall_empty]

/-- Witness for c8_oob_discarded at the RNG state 3, whose draws sample (9,0)
with the north neighbor (9,-1). -/
theorem c8_oob_discarded_witness :
    in_bounds (rps_n gsC8w).1 (rps_n gsC8w).2 = false
    ∧ resolve_pairs_step (gsC8w, 0, 0, 0) 0 = (rps_gs3 gsC8w, 0, 0, 0)
    ∧ (rps_gs3 gsC8w).grid = gsC8w.grid :=
  ⟨by decide,
   (c8_oob_discarded gsC8w 0 0 0 0 (by decide)).1,
   (c8_oob_discarded gsC8w 0 0 0 0 (by decide)).2.1⟩

/-- C9: the LFSR state is seeded with the non-zero constant 0xACE1, and the
step function maps every non-zero state to a non-zero state, so the all-zero
fixed point is never reached. -/
theorem c9_lfsr_nonzero :
    gsDefault.rng16 = 0xACE1 ∧ (0xACE1 : Nat) ≠ 0
    ∧ ∀ s : Nat, s ≠ 0 → lfsr16_step s ≠ 0 := by
  refine ⟨rfl, by decide, ?_⟩
  intro s hs hz
  unfold lfsr16_step at hz
  simp only at hz
  by_cases h2 : 2 ≤ s
  · have hhalf : s >>> 1 ≠ 0 := by
      rw [Nat.shiftRight_one]
      omega
    apply hhalf
    apply Nat.eq_of_testBit_eq
    intro i
    have hbit := congrArg (fun t => t.testBit i) hz
    simp only [Nat.testBit_or] at hbit
    simp at hbit ⊢
    exact hbit.1
  · have hs1 : s = 1 := by omega
    rw [hs1] at hz
    exact absurd hz (by decide)

/-- Witness for c9_lfsr_nonzero at the seed itself. -/
theorem c9_lfsr_nonzero_witness :
    (0xACE1 : Nat) ≠ 0 ∧ lfsr16_step 0xACE1 ≠ 0 :=
  ⟨by decide, c9_lfsr_nonzero.2.2 0xACE1 (by decide)⟩

/-- C10: tick_losses is an 8-bit counter, so the loss increment stores
(old + 1) mod 256; a player already at 255 losses in the tick is wrapped back
to 0 by one more lost duel instead of saturating. -/
theorem c10_losses_wrap :
    (∀ gs : GameState, ∀ loser : Nat, loser < gs.players.length →
        ((incLoss gs loser).players.getD loser defaultPlayer).tick_losses
          = ((gs.players.getD loser defaultPlayer).tick_losses + 1) % 256)
    ∧ (∀ gs : GameState, ∀ x y nx ny : Int,
        in_bounds nx ny = true →
        (gs.grid (idx x.toNat y.toNat)).kind = CellKind.Symbol →
        (gs.grid (idx nx.toNat ny.toNat)).kind = CellKind.Symbol →
        (gs.grid (idx x.toNat y.toNat)).owner ≠ (gs.grid (idx nx.toNat ny.toNat)).owner →
        beats (gs.grid (idx x.toNat y.toNat)).piece
          (gs.grid (idx nx.toNat ny.toNat)).piece = true →
        (gs.grid (idx nx.toNat ny.toNat)).owner < gs.players.length →
        (gs.players.getD ((gs.grid (idx nx.toNat ny.toNat)).owner)
            defaultPlayer).tick_losses = 255 →
        ((resolve_pair gs x y nx ny).players.getD
            ((gs.grid (idx nx.toNat ny.toNat)).owner) defaultPlayer).tick_losses = 0) := by
  constructor
  · exact incLoss_losses
  · intro gs x y nx ny hin ha hb ho hw hlen h255
    rw [resolve_pair_duel_won gs x y nx ny hin ha hb ho hw]
    rw [incLoss_losses
          { gs with
              grid := gridSet gs.grid (idx nx.toNat ny.toNat)
                (gs.grid (idx x.toNat y.toNat)) } _ hlen]
    simp only
    rw [h255]

/-- Witness for c10_losses_wrap on the duel of gsC10w whose loser is at 255. -/
theorem c10_losses_wrap_witness :
    ((gsC10w.players.getD ((gsC10w.grid (idx (6 : Int).toNat (5 : Int).toNat)).owner)
        defaultPlayer).tick_losses = 255)
    ∧ ((resolve_pair gsC10w 5 5 6 5).players.getD
        ((gsC10w.grid (idx (6 : Int).toNat (5 : Int).toNat)).owner) defaultPlayer).tick_losses
        = 0 :=
  ⟨by decide,
   c10_losses_wrap.2 gsC10w 5 5 6 5 (by decide) (by decide) (by decide) (by decide)
     (by decide) (by decide) (by decide)⟩

end Handlords
